import Mathlib

/-!
Verification of the CV generator's relevance-scoring and content-selection
pipeline (src/app.py).

Modelling conventions:
* Python strings are lists of characters ( `Str := List Char` ); only ASCII
  case conversion is modelled for `str.lower()`.
* Python's substring test `needle in hay` is `strIn needle hay`, decided
  through `List.IsInfix`.
* `random.choice(xs)` is modelled by an arbitrary index into the fixed list
  `xs` ; one index is supplied per call.
* The Anthropic client and `json.loads` are external collaborators: the
  gateway's parsed result is an explicit `Option` parameter, and `json.loads`
  is an arbitrary function `Str → Option JVal` (returning `none` on any
  parse exception).
* Python's `list.sort(key=lambda x: x[1], reverse=True)` is a stable
  descending sort; it is modelled by `List.insertionSort` with the relation
  "left pair's score is at least the right pair's score", which is sorted,
  stable and a permutation - the same three properties that uniquely
  determine the output of Python's stable sort.
-/

set_option maxRecDepth 8000

namespace CVGen

/-- A Python string, as a list of characters. -/
abbrev Str := List Char

/-- ASCII case folding for one character (models `str.lower()` on the
ASCII inputs used throughout the program). -/
def lowerChar (c : Char) : Char :=
  if 'A' ≤ c ∧ c ≤ 'Z' then Char.ofNat (c.toNat + 32) else c

/-- Models Python `s.lower()`. -/
def lower (s : Str) : Str := s.map lowerChar

/-- Models Python's substring test `needle in hay`. -/
def strIn (needle hay : Str) : Bool := decide (needle <:+: hay)

/-- Decimal rendering of a number, for f-string interpolation. -/
def natStr (n : Nat) : Str := (Nat.repr n).toList

/-! ### Data model (section 3 of the spec) -/

/-- One work-experience source record (entries of `experiences` in
`experience_data.json` / `get_sample_data`). -/
structure ExperienceRecord where
  company : Str
  role : Str
  duration : Str
  job_type : Str
  description : Str
deriving DecidableEq

/-- One project source record (entries of `projects`). -/
structure ProjectRecord where
  name : Str
  link : Str
  description : Str
deriving DecidableEq

/-- The requirement profile produced by `analyze_job_description_claude`. -/
structure JdAnalysis where
  role_type : Str
  seniority_level : Str
  primary_skills : List Str
  key_technologies : List Str
  ats_keywords : List Str
  focus_areas : List Str
  industry_context : Str
deriving DecidableEq

/-! ### Relevance scoring (app.py `select_relevant_experiences`,
`select_relevant_projects`, lines 170-268) -/

/-- An `if role == c1 and any(kw in d for kw in kws1): score += b1
elif role == c2 and ...` chain, written as first-match lookup in the list of
`(role constant, keyword list, bonus)` branches.  All chains in the source
have pairwise-distinct role constants, so first-match lookup is exactly the
`elif` chain. -/
def bonus_chain (table : List (Str × List Str × Nat)) (selector description_lower : Str) :
    Nat :=
  match table with
  | [] => 0
  | (c, kws, b) :: rest =>
    if selector = c ∧ (kws.any (fun keyword => strIn keyword description_lower)) = true then b
    else bonus_chain rest selector description_lower

/-- Role-specific bonus branches of `select_relevant_experiences`
(app.py lines 203-210). -/
def experience_role_table : List (Str × List Str × Nat) :=
  [ ( "mobile".toList,
      [ "react native".toList, "ios".toList, "android".toList, "mobile".toList ], 3),
    ( "ai-ml".toList,
      [ "ai".toList, "ml".toList, "machine learning".toList, "nlp".toList,
        "tensorflow".toList ], 3),
    ( "backend".toList,
      [ "node.js".toList, "python".toList, "api".toList, "database".toList,
        "server".toList ], 3),
    ( "frontend".toList,
      [ "react".toList, "vue".toList, "angular".toList, "frontend".toList,
        "ui".toList ], 3) ]

/-- Recency bonus of `select_relevant_experiences` (app.py lines 195-200). -/
def experience_recency_bonus (duration : Str) : Nat :=
  if strIn "present".toList (lower duration) = true then 3
  else if ([ "2023".toList, "2024".toList, "2025".toList ].any
      (fun year => strIn year duration)) = true then 2
  else if ([ "2020".toList, "2021".toList, "2022".toList ].any
      (fun year => strIn year duration)) = true then 1
  else 0

/-- The per-record score computed by the loop body of
`select_relevant_experiences` (app.py lines 180-212). -/
def score_experience (jd_analysis : JdAnalysis) (exp : ExperienceRecord) : Nat :=
  let description_lower := lower exp.description
  let key_technologies := jd_analysis.key_technologies.map lower
  let primary_skills := jd_analysis.primary_skills.map lower
  let techScore := 2 * key_technologies.countP (fun tech => strIn tech description_lower)
  let skillScore := primary_skills.countP (fun skill => strIn skill description_lower)
  techScore + skillScore + experience_recency_bonus exp.duration
    + bonus_chain experience_role_table jd_analysis.role_type description_lower

/-- Industry-context bonus branches of `select_relevant_projects`
(app.py lines 245-250). -/
def project_industry_table : List (Str × List Str × Nat) :=
  [ ( "healthcare".toList,
      [ "health".toList, "medical".toList, "hipaa".toList, "patient".toList ], 3),
    ( "fintech".toList,
      [ "payment".toList, "financial".toList, "stripe".toList, "blockchain".toList ], 3),
    ( "ecommerce".toList,
      [ "ecommerce".toList, "shopping".toList, "marketplace".toList, "retail".toList ], 3) ]

/-- Role-specific bonus branches of `select_relevant_projects`
(app.py lines 253-262). -/
def project_role_table : List (Str × List Str × Nat) :=
  [ ( "mobile".toList,
      [ "react native".toList, "ios".toList, "android".toList, "mobile app".toList ], 4),
    ( "ai-ml".toList,
      [ "ai".toList, "ml".toList, "machine learning".toList, "nlp".toList,
        "openai".toList, "llm".toList ], 4),
    ( "blockchain".toList,
      [ "blockchain".toList, "web3".toList, "ethereum".toList, "smart contract".toList ], 4),
    ( "backend".toList,
      [ "api".toList, "database".toList, "server".toList, "microservices".toList ], 3),
    ( "frontend".toList,
      [ "react".toList, "vue".toList, "angular".toList, "frontend".toList,
        "ui/ux".toList ], 3) ]

/-- The per-record score computed by the loop body of
`select_relevant_projects` (app.py lines 229-262).  The source also computes
`name_lower = proj.get('name', '').lower()` but never reads it; the unused
binding is kept here. -/
def score_project (jd_analysis : JdAnalysis) (proj : ProjectRecord) : Nat :=
  let description_lower := lower proj.description
  let _name_lower := lower proj.name
  let key_technologies := jd_analysis.key_technologies.map lower
  let primary_skills := jd_analysis.primary_skills.map lower
  let techScore := 2 * key_technologies.countP (fun tech => strIn tech description_lower)
  let skillScore := primary_skills.countP (fun skill => strIn skill description_lower)
  techScore + skillScore
    + bonus_chain project_industry_table jd_analysis.industry_context description_lower
    + bonus_chain project_role_table jd_analysis.role_type description_lower

/-- Descending-by-score comparison used for
`scored.sort(key=lambda x: x[1], reverse=True)`. -/
def byScoreDesc {α : Type} (x y : α × Nat) : Prop := y.2 ≤ x.2

instance {α : Type} : DecidableRel (byScoreDesc (α := α)) :=
  fun x y => inferInstanceAs (Decidable (y.2 ≤ x.2))

/-- `select_relevant_experiences` (app.py lines 170-216).  The call site in
`generate_cv` passes `max_experiences = 4`. -/
def select_relevant_experiences (all_experiences : List ExperienceRecord)
    (jd_analysis : JdAnalysis) (max_experiences : Nat) : List ExperienceRecord :=
  let scored_experiences :=
    all_experiences.map (fun exp => (exp, score_experience jd_analysis exp))
  let sorted := scored_experiences.insertionSort byScoreDesc
  (sorted.take max_experiences).map Prod.fst

/-- `select_relevant_projects` (app.py lines 218-268).  The call site in
`generate_cv` passes `max_projects = 5`. -/
def select_relevant_projects (all_projects : List ProjectRecord)
    (jd_analysis : JdAnalysis) (max_projects : Nat) : List ProjectRecord :=
  let scored_projects :=
    all_projects.map (fun proj => (proj, score_project jd_analysis proj))
  let sorted := scored_projects.insertionSort byScoreDesc
  (sorted.take max_projects).map Prod.fst

/-! ### Varied metrics and fallback content (app.py lines 89-99, 366-398,
455-461) -/

/-- `performance_improvements` list in `get_varied_metrics`. -/
def performance_improvements : List Nat := [25, 30, 35, 40, 45, 50, 60, 65, 70]

/-- `uptime_metrics` list in `get_varied_metrics`. -/
def uptime_metrics : List Str :=
  [ "99.9%".toList, "99.95%".toList, "99.8%".toList,
    "high availability".toList, "enterprise-grade reliability".toList ]

/-- `reduction_metrics` list in `get_varied_metrics`. -/
def reduction_metrics : List Nat := [15, 20, 25, 30, 35, 40, 45, 50, 55, 60]

/-- The three values drawn by `get_varied_metrics`. -/
structure Metrics where
  performance : Nat
  uptime : Str
  reduction : Nat
deriving DecidableEq

/-- `get_varied_metrics` (app.py lines 89-99).  Each `random.choice` is
modelled by an arbitrary index (mod list length) into the fixed list. -/
def get_varied_metrics (choice : Nat × Nat × Nat) : Metrics :=
  { performance :=
      performance_improvements.getD (choice.1 % performance_improvements.length) 0
    uptime := uptime_metrics.getD (choice.2.1 % uptime_metrics.length) []
    reduction := reduction_metrics.getD (choice.2.2 % reduction_metrics.length) 0 }

/-- `get_fallback_bullets` (app.py lines 366-398).  The source draws fresh
metrics inside the function; that draw is the `m` parameter here. -/
def get_fallback_bullets (company : Str) (m : Metrics) : List Str :=
  if strIn "hellogov".toList (lower company) = true then
    [ "Led full-stack development for AI-powered government services platform, achieving ".toList
        ++ natStr m.performance ++ "% improvement in document processing efficiency".toList,
      "Built comprehensive passport application portal with machine learning validation, reducing processing errors and improving user experience".toList,
      "Implemented SEO-optimized marketing website generating significant revenue through strategic optimization and conversion tracking".toList,
      "Developed scalable architecture supporting government API integrations with ".toList
        ++ m.uptime ++ " reliability".toList ]
  else if strIn "facebook".toList (lower company) = true then
    [ "Developed Oculus VR ecosystem serving 2.8B+ users, implementing real-time streaming with ".toList
        ++ natStr m.performance ++ "% performance improvement".toList,
      "Built scalable News Feed backend services optimizing content delivery for billions of daily active users".toList,
      "Architected GraphQL live query systems reducing content loading latency by ".toList
        ++ natStr m.reduction ++ "%".toList,
      "Led cross-platform development initiatives with focus on performance and reliability".toList ]
  else if strIn "microsoft".toList (lower company) = true then
    [ "Developed enterprise communication applications for 300M+ Skype users with ".toList
        ++ m.uptime ++ " availability".toList,
      "Led Android Remote Desktop Client development reducing connection failures by ".toList
        ++ natStr m.reduction ++ "%".toList,
      "Implemented comprehensive telemetry systems improving application stability and user satisfaction".toList,
      "Built cross-platform solutions with focus on enterprise security and scalability".toList ]
  else
    [ "Developed scalable applications at ".toList ++ company
        ++ " using modern frameworks and architectural patterns".toList,
      "Implemented performance optimizations improving system efficiency by ".toList
        ++ natStr m.performance ++ "% and enhancing user experience".toList,
      "Led technical initiatives and collaborated with cross-functional teams for successful project delivery".toList,
      "Delivered high-quality solutions with measurable business impact and ".toList
        ++ m.uptime ++ " reliability".toList ]

/-- `get_fallback_project_bullets` (app.py lines 455-461); the internal
metrics draw is the `m` parameter. -/
def get_fallback_project_bullets (project_name : Str) (m : Metrics) : List Str :=
  [ "Engineered ".toList ++ project_name
      ++ " with modern technologies and scalable architecture for optimal performance".toList,
    "Delivered high-impact solution improving system efficiency by ".toList
      ++ natStr m.performance ++ "% with measurable business results".toList ]

/-! ### Experience-bullet generation (app.py lines 271-364) -/

/-- `healthcare_companies` list (app.py line 281). -/
def healthcare_companies : List Str :=
  [ "bicyclehealth".toList, "midato health".toList, "midato healt".toList ]

/-- `is_healthcare_experience` (app.py line 282). -/
def is_healthcare_experience (experience : ExperienceRecord) : Bool :=
  healthcare_companies.any (fun h => strIn h (lower experience.company))

/-- `has_healthcare_in_description` (app.py lines 285-286). -/
def has_healthcare_in_description (experience : ExperienceRecord) : Bool :=
  [ "health".toList, "medical".toList, "patient".toList, "hipaa".toList,
    "telemedicine".toList ].any
    (fun keyword => strIn keyword (lower experience.description))

/-- `healthcare_keywords` banned from generated bullets (app.py line 344). -/
def healthcare_keywords : List Str :=
  [ "healthcare".toList, "patient".toList, "medical".toList, "hipaa".toList,
    "clinical".toList, "health".toList ]

/-- The generic filler bullet appended when fewer than 3 bullets survive
the healthcare filter (app.py line 356). -/
def filler_bullet (company : Str) : Str :=
  "Delivered high-performance solutions at ".toList ++ company
    ++ " with measurable business impact".toList

/-- One pass of the `while len(filtered_bullets) < 3: append(...)` loop
(app.py lines 355-356), with explicit fuel so that the definition reduces
computationally; each iteration grows the list by one element, so 3
iterations always suffice. -/
def fill_loop (company : Str) : Nat → List Str → List Str
  | 0, filtered_bullets => filtered_bullets
  | fuel + 1, filtered_bullets =>
    if filtered_bullets.length < 3 then
      fill_loop company fuel (filtered_bullets ++ [ filler_bullet company ])
    else filtered_bullets

/-- The `while len(filtered_bullets) < 3: append(...)` loop
(app.py lines 355-356). -/
def fill_min_bullets (company : Str) (filtered_bullets : List Str) : List Str :=
  fill_loop company 3 filtered_bullets

/-- The post-processing of the parsed gateway result in
`generate_experience_bullets_claude` (app.py lines 341-360): for records not
flagged as healthcare, bullets containing a banned keyword are discarded,
generic fillers restore the minimum of 3, and the list is truncated to 4;
flagged records return the parsed result unchanged. -/
def generate_experience_bullets_post (experience : ExperienceRecord)
    (result : List Str) : List Str :=
  if !(is_healthcare_experience experience) && !(has_healthcare_in_description experience) then
    let filtered_bullets := result.filter
      (fun bullet => !(healthcare_keywords.any (fun keyword => strIn keyword (lower bullet))))
    (fill_min_bullets experience.company filtered_bullets).take 4
  else result

/-- `generate_experience_bullets_claude` (app.py lines 271-364).
`gateway_result = none` models the client being unconfigured or the API call
raising (lines 274-276 and 362-364): the fallback is returned unfiltered.
`gateway_result = some result` models the value produced by
`safe_json_parse` on the response text - a JSON array of strings (parse
failure yields the fallback bullet list, which is covered by quantifying
over `result`). -/
def generate_experience_bullets_claude (experience : ExperienceRecord)
    (gateway_result : Option (List Str)) (m : Metrics) : List Str :=
  match gateway_result with
  | none => get_fallback_bullets experience.company m
  | some result => generate_experience_bullets_post experience result

/-! ### JSON values and the response normalizer (app.py lines 23-63) -/

/-- A parsed JSON value (the possible results of `json.loads`).  Numbers are
modelled as integers. -/
inductive JVal where
  | null : JVal
  | bool : Bool → JVal
  | num : Int → JVal
  | str : Str → JVal
  | arr : List JVal → JVal
  | obj : List (Str × JVal) → JVal

/-- Python truthiness of a parsed JSON value (`parsed if parsed else
fallback_data`). -/
def JVal.falsy : JVal → Bool
  | .null => true
  | .bool b => !b
  | .num n => n == 0
  | .str s => s.isEmpty
  | .arr l => l.isEmpty
  | .obj l => l.isEmpty

/-- `generate_project_bullets_claude` (app.py lines 401-453).
`gateway_result = none` models the client being unconfigured or the API call
raising; `some result` models the value produced by `safe_json_parse`.
The source keeps `result[:2]` whenever `isinstance(result, list) and
len(result) >= 2`, and returns the fallback pair otherwise (lines 446-449). -/
def generate_project_bullets_claude (project : ProjectRecord)
    (gateway_result : Option JVal) (m : Metrics) : List JVal :=
  match gateway_result with
  | none => (get_fallback_project_bullets project.name m).map JVal.str
  | some result =>
    match result with
    | JVal.arr l =>
      if 2 ≤ l.length then l.take 2
      else (get_fallback_project_bullets project.name m).map JVal.str
    | _ => (get_fallback_project_bullets project.name m).map JVal.str

/-- Python `\s` whitespace characters (ASCII). -/
def isPySpace (c : Char) : Bool :=
  c == ' ' || c == '\t' || c == '\n' || c == '\r' || c == '\x0b' || c == '\x0c'

/-- Drops a maximal run of whitespace, returning the rest and the last
whitespace character dropped (or the supplied previous character when none
is dropped). -/
def dropSpaceRun : Str → Char → (Str × Char)
  | [], last => ([], last)
  | c :: t, last => if isPySpace c then dropSpaceRun t c else (c :: t, last)

/-- One `re.sub(r'^marker\s*', '', text, flags=re.MULTILINE)` pass: at the
start of the text or just after a newline, an occurrence of `marker`
followed by a greedy whitespace run is removed; scanning then resumes after
the removed region (which is at a line start exactly when the last removed
whitespace character was a newline).  `fuel` bounds the scan; callers pass
at least `text.length + 1`, which is enough since every step consumes a
character. -/
def subLineMarker (marker : Str) : Nat → Bool → Str → Str
  | 0, _, t => t
  | fuel + 1, atLineStart, t =>
    if atLineStart && marker.isPrefixOf t then
      let rest := dropSpaceRun (t.drop marker.length) 'a'
      subLineMarker marker fuel (rest.2 == '\n') rest.1
    else
      match t with
      | [] => []
      | c :: t' => c :: subLineMarker marker fuel (c == '\n') t'

/-- One `re.sub(r'\s*```$', '', text, flags=re.MULTILINE)` pass: at each
position, a whitespace run followed by three backtick characters and then a
newline or end of text is removed.  `fuel` as in `subLineMarker`. -/
def subTrailingFence : Nat → Str → Str
  | 0, t => t
  | fuel + 1, t =>
    let ws := t.takeWhile isPySpace
    let rest := t.drop ws.length
    if "```".toList.isPrefixOf rest
        && ((rest.drop 3).isEmpty || (rest.drop 3).headD 'a' == '\n') then
      subTrailingFence fuel (rest.drop 3)
    else
      match t with
      | [] => []
      | c :: t' => c :: subTrailingFence fuel t'

/-- Index of the last occurrence of `c` in `t`. -/
def lastIdxOf (c : Char) (t : Str) : Option Nat :=
  match t.reverse.findIdx? (· == c) with
  | none => none
  | some jr => some (t.length - 1 - jr)

/-- `re.search(r'\x7b.*\x7d', text, re.DOTALL)`: the span from the first
opening brace to the last closing brace, when the latter comes after the
former. -/
def braceSpan (t : Str) : Option Str :=
  match t.findIdx? (· == '\x7b'), lastIdxOf '\x7d' t with
  | some i, some j => if i < j then some ((t.drop i).take (j - i + 1)) else none
  | _, _ => none

/-- `re.search(r'\[.*\]', text, re.DOTALL)`: the span from the first
opening bracket to the last closing bracket. -/
def bracketSpan (t : Str) : Option Str :=
  match t.findIdx? (· == '['), lastIdxOf ']' t with
  | some i, some j => if i < j then some ((t.drop i).take (j - i + 1)) else none
  | _, _ => none

/-- Python `str.strip()` (ASCII whitespace). -/
def pyStrip (t : Str) : Str :=
  ((t.dropWhile isPySpace).reverse.dropWhile isPySpace).reverse

/-- `clean_json_response` (app.py lines 23-43). -/
def clean_json_response (text : Str) : Str :=
  if text.isEmpty then []
  else
    let t1 := subLineMarker "```json".toList (text.length + 1) true text
    let t2 := subLineMarker "```".toList (t1.length + 1) true t1
    let t3 := subTrailingFence (t2.length + 1) t2
    match braceSpan t3 with
    | some json_match => json_match
    | none =>
      match bracketSpan t3 with
      | some array_match => array_match
      | none => pyStrip t3

/-- `safe_json_parse` (app.py lines 45-63).  `loads` is `json.loads`,
returning `none` on any exception; `text = none` models a `None` argument
(both `None` and the empty string fail Python's `if not text` check). -/
def safe_json_parse (loads : Str → Option JVal) (text : Option Str)
    (fallback_data : JVal) : JVal :=
  match text with
  | none => fallback_data
  | some t =>
    if t.isEmpty then fallback_data
    else
      let cleaned_text := clean_json_response t
      if cleaned_text.isEmpty then fallback_data
      else
        match loads cleaned_text with
        | none => fallback_data
        | some parsed => if parsed.falsy then fallback_data else parsed

/-- The two selectors share this shape: score, stable-sort descending,
take `k`, forget the scores. -/
def selectTop {α : Type} (score : α → Nat) (l : List α) (k : Nat) : List α :=
  ((((l.map (fun x => (x, score x))).insertionSort byScoreDesc).take k).map Prod.fst)

/-! ### Concrete fixtures used by witnesses and counterexamples -/

/-- Requirement profile of end-to-end scenario A of the spec. -/
def sample_jd_backend : JdAnalysis :=
  { role_type := "backend".toList, seniority_level := "senior".toList,
    primary_skills := [ "Node.js".toList ],
    key_technologies := [ "PostgreSQL".toList ],
    ats_keywords := [], focus_areas := [],
    industry_context := "enterprise".toList }

/-- Experience record whose description contains the key technology but
which earns no recency or role bonus. -/
def sample_exp_postgres : ExperienceRecord :=
  { company := "Gamma Soft".toList, role := "Engineer".toList,
    duration := "2019".toList, job_type := "Remote".toList,
    description := "Used PostgreSQL daily".toList }

/-- Experience record without the key technology but with recency, skill
and role bonuses. -/
def sample_exp_recent : ExperienceRecord :=
  { company := "Beta Corp".toList, role := "Engineer".toList,
    duration := "Jan 2020 - Present".toList, job_type := "Remote".toList,
    description := "node.js api server work".toList }

/-- A non-healthcare company whose name contains the substring "health". -/
def sample_exp_healthfirst : ExperienceRecord :=
  { company := "Healthfirst Tech".toList, role := "Engineer".toList,
    duration := "2019".toList, job_type := "Remote".toList,
    description := "built web apps".toList }

/-- A plain non-healthcare record with a keyword-free company name. -/
def sample_exp_acme : ExperienceRecord :=
  { company := "Acme Corp".toList, role := "Engineer".toList,
    duration := "2019".toList, job_type := "Remote".toList,
    description := "built web apps".toList }

/-- A record recognized as a healthcare employer. -/
def sample_exp_bicycle : ExperienceRecord :=
  { company := "BicycleHealth".toList, role := "Engineer".toList,
    duration := "2019".toList, job_type := "Remote".toList,
    description := "mobile app work".toList }

/-- A sample project record. -/
def sample_project : ProjectRecord :=
  { name := "WikiSearch".toList, link := [],
    description := "semantic search engine".toList }

/-- The same project record with only the name changed. -/
def sample_project_renamed : ProjectRecord :=
  { name := "WikiFind".toList, link := [],
    description := "semantic search engine".toList }

/-- One concrete metrics draw. -/
def sample_metrics : Metrics := get_varied_metrics (0, 0, 0)

/-! ### Helper lemmas: the string model -/

theorem strIn_iff {needle hay : Str} : strIn needle hay = true ↔ needle <:+: hay := by
  simp [strIn]

theorem strIn_append_right {needle s : Str} (t : Str) (h : strIn needle s = true) :
    strIn needle (s ++ t) = true := by
  rw [strIn_iff] at h ⊢
  exact h.trans (List.prefix_append s t).isInfix

theorem lower_append (s t : Str) : lower (s ++ t) = lower s ++ lower t :=
  List.map_append _ s t

theorem lower_cons (c : Char) (s : Str) : lower (c :: s) = lowerChar c :: lower s := rfl

/-- A keyword that avoids a separator character and is a prefix of
`x ++ c :: y` is already a prefix of `x`. -/
theorem prefix_split_of_not_mem {k x y : Str} {c : Char} (hc : c ∉ k)
    (h : k <+: x ++ c :: y) : k <+: x := by
  induction k generalizing x with
  | nil => exact List.nil_prefix
  | cons a k' ih =>
    cases x with
    | nil =>
      rw [List.nil_append, List.cons_prefix_cons] at h
      exact absurd (h.1 ▸ List.mem_cons_self a k') hc
    | cons b x' =>
      rw [List.cons_append, List.cons_prefix_cons] at h
      rw [List.cons_prefix_cons]
      exact ⟨h.1, ih (fun hm => hc (List.mem_cons_of_mem a hm)) h.2⟩

/-- An occurrence of a keyword that avoids a separator character lies
entirely on one side of that separator. -/
theorem infix_split_of_not_mem {k x y : Str} {c : Char} (hc : c ∉ k)
    (h : k <:+: x ++ c :: y) : k <:+: x ∨ k <:+: y := by
  induction x with
  | nil =>
    rw [List.nil_append, List.infix_cons_iff] at h
    rcases h with hp | hi
    · have hnil : k <+: ([] : Str) :=
        prefix_split_of_not_mem hc (by simpa using hp)
      rw [List.prefix_nil] at hnil
      exact Or.inl (hnil ▸ List.nil_infix)
    · exact Or.inr hi
  | cons b x' ih =>
    rw [List.cons_append, List.infix_cons_iff] at h
    rcases h with hp | hi
    · exact Or.inl (prefix_split_of_not_mem hc hp).isInfix
    · rcases ih hi with h1 | h2
      · exact Or.inl (List.infix_cons h1)
      · exact Or.inr h2

theorem strIn_split {k x y : Str} {c : Char} (hc : c ∉ k)
    (h : strIn k (x ++ c :: y) = true) : strIn k x = true ∨ strIn k y = true := by
  rw [strIn_iff] at h
  rcases infix_split_of_not_mem hc h with h1 | h2
  · exact Or.inl (strIn_iff.mpr h1)
  · exact Or.inr (strIn_iff.mpr h2)

/-- A space-free keyword absent from the fixed head, the embedded middle and
the fixed tail is absent from the whole space-separated assembly. -/
theorem strIn_sandwich {k pre mid post : Str} (hk : ' ' ∉ k)
    (hpre : strIn k pre = false) (hmid : strIn k mid = false)
    (hpost : strIn k post = false) :
    strIn k (pre ++ ' ' :: (mid ++ ' ' :: post)) = false := by
  cases hb : strIn k (pre ++ ' ' :: (mid ++ ' ' :: post)) with
  | false => rfl
  | true =>
    exfalso
    rcases strIn_split hk hb with h1 | h2
    · rw [hpre] at h1
      exact Bool.noConfusion h1
    · rcases strIn_split hk h2 with h3 | h4
      · rw [hmid] at h3
        exact Bool.noConfusion h3
      · rw [hpost] at h4
        exact Bool.noConfusion h4

/-! ### Helper lemmas: varied metrics -/

theorem getD_mod_mem {α : Type} (l : List α) (d : α) (i : Nat) (h : l ≠ []) :
    l.getD (i % l.length) d ∈ l := by
  have hlt : i % l.length < l.length := Nat.mod_lt _ (List.length_pos.mpr h)
  rw [List.getD_eq_getElem l d hlt]
  exact List.getElem_mem hlt

theorem get_varied_metrics_mem (choice : Nat × Nat × Nat) :
    (get_varied_metrics choice).performance ∈ performance_improvements ∧
      (get_varied_metrics choice).uptime ∈ uptime_metrics ∧
      (get_varied_metrics choice).reduction ∈ reduction_metrics :=
  ⟨getD_mod_mem _ _ _ (by decide),
    getD_mod_mem _ _ _ (by decide),
    getD_mod_mem _ _ _ (by decide)⟩

/-! ### Helper lemmas: the filler loop -/

theorem fill_loop_spec (company : Str) :
    ∀ (fuel : Nat) (l : List Str), 3 - l.length ≤ fuel →
      (fill_loop company fuel l).length = max 3 l.length ∧
        ∀ b ∈ fill_loop company fuel l, b ∈ l ∨ b = filler_bullet company := by
  intro fuel
  induction fuel with
  | zero =>
    intro l hl
    have h3 : 3 ≤ l.length := by omega
    rw [fill_loop]
    exact ⟨by omega, fun b hb => Or.inl hb⟩
  | succ n ih =>
    intro l hl
    by_cases h : l.length < 3
    · rw [fill_loop]
      simp only [h, if_true]
      have harg : 3 - (l ++ [ filler_bullet company ]).length ≤ n := by
        simp [List.length_append]
        omega
      rcases ih (l ++ [ filler_bullet company ]) harg with ⟨hlen, hmem⟩
      constructor
      · rw [hlen]
        simp [List.length_append]
        omega
      · intro b hb
        rcases hmem b hb with hb1 | hb2
        · rcases List.mem_append.mp hb1 with hb3 | hb4
          · exact Or.inl hb3
          · exact Or.inr (List.mem_singleton.mp hb4)
        · exact Or.inr hb2
    · have h3 : 3 ≤ l.length := by omega
      rw [fill_loop]
      simp only [h, if_false]
      exact ⟨by omega, fun b hb => Or.inl hb⟩

theorem fill_min_bullets_length (company : Str) (l : List Str) :
    (fill_min_bullets company l).length = max 3 l.length :=
  (fill_loop_spec company 3 l (by omega)).1

theorem fill_min_bullets_mem (company : Str) {l : List Str} {b : Str}
    (hb : b ∈ fill_min_bullets company l) : b ∈ l ∨ b = filler_bullet company :=
  (fill_loop_spec company 3 l (by omega)).2 b hb

/-! ### Helper lemmas: the stable descending sort -/

/-- Stability of the modelled sort, in filter form: the records carrying any
fixed score appear in the sorted list exactly as they appear in the input. -/
theorem insertionSort_filter_score {α : Type} (l : List (α × Nat)) (s : Nat) :
    (l.insertionSort byScoreDesc).filter (fun x => x.2 == s) =
      l.filter (fun x => x.2 == s) := by
  have hpw : (l.filter (fun x => x.2 == s)).Pairwise byScoreDesc := by
    apply List.pairwise_of_forall_mem_list
    intro a ha b hb
    have ha2 : a.2 = s := by simpa using (List.mem_filter.mp ha).2
    have hb2 : b.2 = s := by simpa using (List.mem_filter.mp hb).2
    unfold byScoreDesc
    omega
  have hsub : List.Sublist (l.filter (fun x => x.2 == s)) (l.insertionSort byScoreDesc) :=
    List.sublist_insertionSort hpw (List.filter_sublist l)
  have hsub2 : List.Sublist (l.filter (fun x => x.2 == s))
      ((l.insertionSort byScoreDesc).filter (fun x => x.2 == s)) := by
    have := hsub.filter (fun x => x.2 == s)
    rwa [List.filter_filter, show (fun (x : α × Nat) => (x.2 == s) && (x.2 == s)) =
      (fun x => x.2 == s) from funext (fun x => Bool.and_self _)] at this
  have hlen : ((l.insertionSort byScoreDesc).filter (fun x => x.2 == s)).length =
      (l.filter (fun x => x.2 == s)).length := by
    rw [← List.countP_eq_length_filter, ← List.countP_eq_length_filter]
    exact (List.perm_insertionSort byScoreDesc l).countP_eq _
  exact (hsub2.eq_of_length hlen.symm).symm

theorem filter_map_comm {α β : Type} (f : α → β) (p : β → Bool) (l : List α) :
    (l.map f).filter p = (l.filter (fun x => p (f x))).map f := by
  induction l with
  | nil => rfl
  | cons a l ih =>
    by_cases h : p (f a)
    · simp [List.filter_cons, h, ih]
    · simp [List.filter_cons, h, ih]

/-! ### Helper lemmas: score monotonicity under description extension -/

theorem any_strIn_append {kws : List Str} {d : Str} (t : Str)
    (h : (kws.any fun keyword => strIn keyword d) = true) :
    (kws.any fun keyword => strIn keyword (d ++ t)) = true := by
  rcases List.any_eq_true.mp h with ⟨k, hk, hkin⟩
  exact List.any_eq_true.mpr ⟨k, hk, strIn_append_right t hkin⟩

theorem bonus_chain_eq_zero_of_not_mem {table : List (Str × List Str × Nat)}
    {selector : Str} (h : selector ∉ table.map Prod.fst) (d : Str) :
    bonus_chain table selector d = 0 := by
  induction table with
  | nil => rfl
  | cons entry rest ih =>
    rw [bonus_chain]
    have hne : ¬ selector = entry.1 := by
      intro he
      exact h (by simp [he])
    rcases entry with ⟨c, kws, b⟩
    simp only [hne, false_and, if_false]
    exact ih (fun hm => h (List.mem_cons_of_mem _ hm))

theorem bonus_chain_append_mono {table : List (Str × List Str × Nat)}
    (hnd : (table.map Prod.fst).Nodup) (selector d : Str) (t : Str) :
    bonus_chain table selector d ≤ bonus_chain table selector (d ++ t) := by
  induction table with
  | nil => exact Nat.le_refl 0
  | cons entry rest ih =>
    rcases entry with ⟨c, kws, b⟩
    rw [bonus_chain, bonus_chain]
    rcases List.pairwise_cons.mp hnd with ⟨hhead, htail⟩
    by_cases hcond : selector = c ∧ (kws.any fun keyword => strIn keyword d) = true
    · rw [if_pos hcond, if_pos ⟨hcond.1, any_strIn_append t hcond.2⟩]
    · rw [if_neg hcond]
      by_cases hcond' : selector = c ∧ (kws.any fun keyword => strIn keyword (d ++ t)) = true
      · have hzero : bonus_chain rest selector d = 0 := by
          apply bonus_chain_eq_zero_of_not_mem _ d
          rw [hcond'.1]
          intro hmem
          exact (hhead c hmem) rfl
        rw [if_pos hcond', hzero]
        exact Nat.zero_le b
      · rw [if_neg hcond']
        exact ih htail

theorem countP_strIn_append_mono (kws : List Str) (d t : Str) :
    (kws.countP fun keyword => strIn keyword d) ≤
      (kws.countP fun keyword => strIn keyword (d ++ t)) :=
  List.countP_mono_left (fun _ _ hk => strIn_append_right t hk)

/-! ### Helper lemmas: generic facts about the top-K selection  -/

theorem selectTop_experiences (jd_analysis : JdAnalysis)
    (all_experiences : List ExperienceRecord) (k : Nat) :
    select_relevant_experiences all_experiences jd_analysis k =
      selectTop (score_experience jd_analysis) all_experiences k := rfl

theorem selectTop_projects (jd_analysis : JdAnalysis)
    (all_projects : List ProjectRecord) (k : Nat) :
    select_relevant_projects all_projects jd_analysis k =
      selectTop (score_project jd_analysis) all_projects k := rfl

theorem snd_eq_score_of_mem_sorted {α : Type} (score : α → Nat) (l : List α)
    {pr : α × Nat}
    (hpr : pr ∈ (l.map (fun x => (x, score x))).insertionSort byScoreDesc) :
    pr.2 = score pr.1 := by
  have hmem : pr ∈ l.map (fun x => (x, score x)) :=
    ((List.perm_insertionSort byScoreDesc _).mem_iff).mp hpr
  rcases List.mem_map.mp hmem with ⟨x, _, rfl⟩
  rfl

theorem map_fst_scored {α : Type} (score : α → Nat) (l : List α) :
    (l.map (fun x => (x, score x))).map Prod.fst = l := by
  rw [List.map_map]
  exact List.map_id l

/-- Stability of the selector, in filter form: among the records of any one
score, the selector's output lists them in input order (it is a sublist of
the equally-scored records of the input, in order). -/
theorem selectTop_stable {α : Type} (score : α → Nat) (l : List α) (k s : Nat) :
    List.Sublist ((selectTop score l k).filter (fun x => score x == s))
      (l.filter (fun x => score x == s)) := by
  unfold selectTop
  rw [filter_map_comm]
  have hcongr : ((((l.map (fun x => (x, score x))).insertionSort byScoreDesc).take k).filter
        (fun pr => score pr.1 == s)) =
      ((((l.map (fun x => (x, score x))).insertionSort byScoreDesc).take k).filter
        (fun pr => pr.2 == s)) := by
    apply List.filter_congr
    intro pr hpr
    rw [snd_eq_score_of_mem_sorted score l (List.mem_of_mem_take hpr)]
  rw [hcongr]
  have h1 : List.Sublist
      ((((l.map (fun x => (x, score x))).insertionSort byScoreDesc).take k).filter
        (fun pr => pr.2 == s))
      (((l.map (fun x => (x, score x))).insertionSort byScoreDesc).filter
        (fun pr => pr.2 == s)) :=
    (List.take_sublist k _).filter _
  rw [insertionSort_filter_score] at h1
  have h2 : ((l.map (fun x => (x, score x))).filter (fun pr => pr.2 == s)) =
      (l.filter (fun x => score x == s)).map (fun x => (x, score x)) := by
    rw [filter_map_comm]
  rw [h2] at h1
  have h3 := h1.map Prod.fst
  rwa [map_fst_scored score (l.filter (fun x => score x == s))] at h3

/-- Cardinality and provenance of the selector output. -/
theorem selectTop_card {α : Type} (score : α → Nat) (l : List α) (k : Nat) :
    (selectTop score l k).length = min k l.length ∧
      List.Subperm (selectTop score l k) l ∧
      (l.length ≤ k → List.Perm (selectTop score l k) l) := by
  have hperm : List.Perm ((l.map (fun x => (x, score x))).insertionSort byScoreDesc)
      (l.map (fun x => (x, score x))) := List.perm_insertionSort _ _
  have hlen : ((l.map (fun x => (x, score x))).insertionSort byScoreDesc).length = l.length := by
    rw [hperm.length_eq, List.length_map]
  refine ⟨?_, ?_, ?_⟩
  · unfold selectTop
    rw [List.length_map, List.length_take, hlen]
  · apply List.subperm_iff.mpr
    refine ⟨((l.map (fun x => (x, score x))).insertionSort byScoreDesc).map Prod.fst, ?_, ?_⟩
    · have := hperm.map Prod.fst
      rwa [map_fst_scored score l] at this
    · exact (List.take_sublist k _).map Prod.fst
  · intro hle
    unfold selectTop
    rw [List.take_of_length_le (by omega)]
    have := hperm.map Prod.fst
    rwa [map_fst_scored score l] at this

/-! ### Helper lemmas: score monotonicity -/

theorem score_experience_append_mono (jd_analysis : JdAnalysis)
    (company role duration job_type d t : Str) :
    score_experience jd_analysis ⟨company, role, duration, job_type, d⟩ ≤
      score_experience jd_analysis ⟨company, role, duration, job_type, d ++ t⟩ := by
  have h1 := countP_strIn_append_mono (jd_analysis.key_technologies.map lower)
    (lower d) (lower t)
  have h2 := countP_strIn_append_mono (jd_analysis.primary_skills.map lower)
    (lower d) (lower t)
  have h3 := @bonus_chain_append_mono experience_role_table (by decide)
    jd_analysis.role_type (lower d) (lower t)
  simp only [score_experience, lower_append]
  omega

theorem score_project_append_mono (jd_analysis : JdAnalysis) (name link d t : Str) :
    score_project jd_analysis ⟨name, link, d⟩ ≤
      score_project jd_analysis ⟨name, link, d ++ t⟩ := by
  have h1 := countP_strIn_append_mono (jd_analysis.key_technologies.map lower)
    (lower d) (lower t)
  have h2 := countP_strIn_append_mono (jd_analysis.primary_skills.map lower)
    (lower d) (lower t)
  have h3 := @bonus_chain_append_mono project_industry_table (by decide)
    jd_analysis.industry_context (lower d) (lower t)
  have h4 := @bonus_chain_append_mono project_role_table (by decide)
    jd_analysis.role_type (lower d) (lower t)
  simp only [score_project, lower_append]
  omega

/-! ### Helper lemmas: bullet lists -/

theorem get_fallback_bullets_length (company : Str) (m : Metrics) :
    (get_fallback_bullets company m).length = 4 := by
  rw [get_fallback_bullets]
  split_ifs <;> rfl

theorem generate_bullets_length_range (e : ExperienceRecord)
    (gres : Option (List Str)) (m : Metrics)
    (h1 : is_healthcare_experience e = false)
    (h2 : has_healthcare_in_description e = false) :
    3 ≤ (generate_experience_bullets_claude e gres m).length ∧
      (generate_experience_bullets_claude e gres m).length ≤ 4 := by
  cases gres with
  | none =>
    simp only [generate_experience_bullets_claude]
    rw [get_fallback_bullets_length]
    omega
  | some result =>
    simp only [generate_experience_bullets_claude, generate_experience_bullets_post,
      h1, h2, Bool.not_false, Bool.and_self, if_true]
    rw [List.length_take, fill_min_bullets_length]
    omega

/-! ### Helper lemmas: no banned keyword in generated bullets -/

theorem filler_bullet_clean {company : Str}
    (h3 : ∀ k ∈ healthcare_keywords, strIn k (lower company) = false) :
    ∀ k ∈ healthcare_keywords, strIn k (lower (filler_bullet company)) = false := by
  have hshape : lower (filler_bullet company) =
      "delivered high-performance solutions at".toList ++ ' ' ::
        (lower company ++ ' ' :: "with measurable business impact".toList) := by
    rw [filler_bullet, lower_append, lower_append]
    rw [show lower ( "Delivered high-performance solutions at ".toList) =
      "delivered high-performance solutions at".toList ++ [ ' ' ] from by decide]
    rw [show lower ( " with measurable business impact".toList) =
      ' ' :: "with measurable business impact".toList from by decide]
    simp [List.append_assoc]
  intro k hk
  rw [hshape]
  have hkor : k = "healthcare".toList ∨ k = "patient".toList ∨ k = "medical".toList ∨
      k = "hipaa".toList ∨ k = "clinical".toList ∨ k = "health".toList := by
    simpa [healthcare_keywords] using hk
  refine strIn_sandwich ?_ ?_ (h3 k hk) ?_
  · rcases hkor with rfl | rfl | rfl | rfl | rfl | rfl <;> decide
  · rcases hkor with rfl | rfl | rfl | rfl | rfl | rfl <;> rfl
  · rcases hkor with rfl | rfl | rfl | rfl | rfl | rfl <;> rfl

theorem fallback_bullets_clean (company : Str) (rnd : Nat × Nat × Nat)
    (h3 : ∀ k ∈ healthcare_keywords, strIn k (lower company) = false) :
    ∀ b ∈ get_fallback_bullets company (get_varied_metrics rnd),
      ∀ k ∈ healthcare_keywords, strIn k (lower b) = false := by
  obtain ⟨hp, hu, hr⟩ := get_varied_metrics_mem rnd
  simp only [performance_improvements, List.mem_cons, List.not_mem_nil, or_false] at hp
  simp only [uptime_metrics, List.mem_cons, List.not_mem_nil, or_false] at hu
  simp only [reduction_metrics, List.mem_cons, List.not_mem_nil, or_false] at hr
  intro b hb k hk
  have hkor : k = "healthcare".toList ∨ k = "patient".toList ∨ k = "medical".toList ∨
      k = "hipaa".toList ∨ k = "clinical".toList ∨ k = "health".toList := by
    simpa [healthcare_keywords] using hk
  rw [get_fallback_bullets] at hb
  split_ifs at hb
  · simp only [List.mem_cons, List.not_mem_nil, or_false] at hb
    rcases hb with rfl | rfl | rfl | rfl
    · rcases hp with h | h | h | h | h | h | h | h | h <;> rw [h] <;>
        rcases hkor with rfl | rfl | rfl | rfl | rfl | rfl <;> rfl
    · rcases hkor with rfl | rfl | rfl | rfl | rfl | rfl <;> rfl
    · rcases hkor with rfl | rfl | rfl | rfl | rfl | rfl <;> rfl
    · rcases hu with h | h | h | h | h <;> rw [h] <;>
        rcases hkor with rfl | rfl | rfl | rfl | rfl | rfl <;> rfl
  · simp only [List.mem_cons, List.not_mem_nil, or_false] at hb
    rcases hb with rfl | rfl | rfl | rfl
    · rcases hp with h | h | h | h | h | h | h | h | h <;> rw [h] <;>
        rcases hkor with rfl | rfl | rfl | rfl | rfl | rfl <;> rfl
    · rcases hkor with rfl | rfl | rfl | rfl | rfl | rfl <;> rfl
    · rcases hr with h | h | h | h | h | h | h | h | h | h <;> rw [h] <;>
        rcases hkor with rfl | rfl | rfl | rfl | rfl | rfl <;> rfl
    · rcases hkor with rfl | rfl | rfl | rfl | rfl | rfl <;> rfl
  · simp only [List.mem_cons, List.not_mem_nil, or_false] at hb
    rcases hb with rfl | rfl | rfl | rfl
    · rcases hu with h | h | h | h | h <;> rw [h] <;>
        rcases hkor with rfl | rfl | rfl | rfl | rfl | rfl <;> rfl
    · rcases hr with h | h | h | h | h | h | h | h | h | h <;> rw [h] <;>
        rcases hkor with rfl | rfl | rfl | rfl | rfl | rfl <;> rfl
    · rcases hkor with rfl | rfl | rfl | rfl | rfl | rfl <;> rfl
    · rcases hkor with rfl | rfl | rfl | rfl | rfl | rfl <;> rfl
  · simp only [List.mem_cons, List.not_mem_nil, or_false] at hb
    rcases hb with rfl | rfl | rfl | rfl
    · have hshape : lower ( "Developed scalable applications at ".toList ++ company
          ++ " using modern frameworks and architectural patterns".toList) =
        "developed scalable applications at".toList ++ ' ' ::
          (lower company ++ ' ' ::
            "using modern frameworks and architectural patterns".toList) := by
        rw [lower_append, lower_append]
        rw [show lower ( "Developed scalable applications at ".toList) =
          "developed scalable applications at".toList ++ [ ' ' ] from by decide]
        rw [show lower ( " using modern frameworks and architectural patterns".toList) =
          ' ' :: "using modern frameworks and architectural patterns".toList from by decide]
        simp [List.append_assoc]
      rw [hshape]
      refine strIn_sandwich ?_ ?_ (h3 k hk) ?_
      · rcases hkor with rfl | rfl | rfl | rfl | rfl | rfl <;> decide
      · rcases hkor with rfl | rfl | rfl | rfl | rfl | rfl <;> rfl
      · rcases hkor with rfl | rfl | rfl | rfl | rfl | rfl <;> rfl
    · rcases hp with h | h | h | h | h | h | h | h | h <;> rw [h] <;>
        rcases hkor with rfl | rfl | rfl | rfl | rfl | rfl <;> rfl
    · rcases hkor with rfl | rfl | rfl | rfl | rfl | rfl <;> rfl
    · rcases hu with h | h | h | h | h <;> rw [h] <;>
        rcases hkor with rfl | rfl | rfl | rfl | rfl | rfl <;> rfl

theorem generate_bullets_clean (e : ExperienceRecord) (gres : Option (List Str))
    (rnd : Nat × Nat × Nat)
    (h1 : is_healthcare_experience e = false)
    (h2 : has_healthcare_in_description e = false)
    (h3 : ∀ k ∈ healthcare_keywords, strIn k (lower e.company) = false) :
    ∀ b ∈ generate_experience_bullets_claude e gres (get_varied_metrics rnd),
      ∀ k ∈ healthcare_keywords, strIn k (lower b) = false := by
  cases gres with
  | none => exact fallback_bullets_clean e.company rnd h3
  | some result =>
    intro b hb k hk
    simp only [generate_experience_bullets_claude, generate_experience_bullets_post,
      h1, h2, Bool.not_false, Bool.and_self, if_true] at hb
    rcases fill_min_bullets_mem e.company (List.mem_of_mem_take hb) with hbf | rfl
    · have hpred := (List.mem_filter.mp hbf).2
      rw [Bool.not_eq_eq_eq_not, Bool.not_true] at hpred
      have hall := List.any_eq_false.mp hpred
      have := hall k hk
      simpa using this
    · exact filler_bullet_clean h3 k hk

/-- On a two-element input, the record with the strictly higher score comes
first, whichever order the input uses. -/
theorem selectTop_pair_of_lt {α : Type} (score : α → Nat) (a b : α)
    (h : score a < score b) :
    selectTop score [ a, b ] 4 = [ b, a ] ∧
      selectTop score [ b, a ] 4 = [ b, a ] := by
  have hnle : ¬ byScoreDesc (a, score a) (b, score b) := Nat.not_le.mpr h
  have hle : byScoreDesc (b, score b) (a, score a) := Nat.le_of_lt h
  constructor
  · show ((([ a, b ].map (fun x => (x, score x))).insertionSort
      byScoreDesc).take 4).map Prod.fst = [ b, a ]
    simp only [List.map, List.insertionSort, List.orderedInsert]
    rw [if_neg hnle]
    rfl
  · show ((([ b, a ].map (fun x => (x, score x))).insertionSort
      byScoreDesc).take 4).map Prod.fst = [ b, a ]
    simp only [List.map, List.insertionSort, List.orderedInsert]
    rw [if_pos hle]
    rfl

/-! ### Claim theorems -/

/-- C2: the relevance selectors perform a stable sort by descending score:
for every input list, profile, cut-off and score value, the selected records
carrying that score form, in order, a sublist of the input records carrying
that score - so any two selected records with equal scores keep their
relative input order. -/
theorem selector_stable_sort (all_experiences : List ExperienceRecord)
    (all_projects : List ProjectRecord) (jd_analysis : JdAnalysis) (k s : Nat) :
    List.Sublist
      ((select_relevant_experiences all_experiences jd_analysis k).filter
        (fun e => score_experience jd_analysis e == s))
      (all_experiences.filter (fun e => score_experience jd_analysis e == s)) ∧
    List.Sublist
      ((select_relevant_projects all_projects jd_analysis k).filter
        (fun p => score_project jd_analysis p == s))
      (all_projects.filter (fun p => score_project jd_analysis p == s)) := by
  rw [selectTop_experiences, selectTop_projects]
  exact ⟨selectTop_stable _ _ _ _, selectTop_stable _ _ _ _⟩

/-- C7: with the call-site cut-offs (4 experiences, 5 projects), each
selector returns exactly `min k (length records)` elements, drawn from the
input without inflating multiplicities, and returns a permutation of the
whole input when it has at most `k` records. -/
theorem selector_cardinality (all_experiences : List ExperienceRecord)
    (all_projects : List ProjectRecord) (jd_analysis : JdAnalysis) :
    ((select_relevant_experiences all_experiences jd_analysis 4).length =
        min 4 all_experiences.length ∧
      List.Subperm (select_relevant_experiences all_experiences jd_analysis 4)
        all_experiences ∧
      (all_experiences.length ≤ 4 →
        List.Perm (select_relevant_experiences all_experiences jd_analysis 4)
          all_experiences)) ∧
    ((select_relevant_projects all_projects jd_analysis 5).length =
        min 5 all_projects.length ∧
      List.Subperm (select_relevant_projects all_projects jd_analysis 5)
        all_projects ∧
      (all_projects.length ≤ 5 →
        List.Perm (select_relevant_projects all_projects jd_analysis 5)
          all_projects)) := by
  rw [selectTop_experiences, selectTop_projects]
  exact ⟨selectTop_card _ _ _, selectTop_card _ _ _⟩

/-- Witness for C7 at a concrete input. -/
theorem selector_cardinality_witness :
    (select_relevant_experiences [ sample_exp_acme ] sample_jd_backend 4).length =
      min 4 [ sample_exp_acme ].length :=
  (selector_cardinality [ sample_exp_acme ] [ sample_project ] sample_jd_backend).1.1

/-- C10: the project relevance score does not depend on the project's name:
two project records with the same description (and link) always receive
equal scores. -/
theorem project_score_ignores_name (jd_analysis : JdAnalysis)
    (p1 p2 : ProjectRecord) (hdesc : p1.description = p2.description)
    (_hlink : p1.link = p2.link) :
    score_project jd_analysis p1 = score_project jd_analysis p2 := by
  simp only [score_project, hdesc]

/-- Witness for C10: two concrete projects differing only in their name. -/
theorem project_score_ignores_name_witness :
    score_project sample_jd_backend sample_project =
      score_project sample_jd_backend sample_project_renamed :=
  project_score_ignores_name sample_jd_backend sample_project sample_project_renamed
    rfl rfl

/-- C4 counterexample: with the gateway failing, two executions that draw
different random metrics produce different experience fallback bullets,
byte for byte. -/
theorem fallback_bullets_vary_counterexample :
    get_fallback_bullets "Acme Corp".toList (get_varied_metrics (0, 0, 0)) ≠
      get_fallback_bullets "Acme Corp".toList (get_varied_metrics (1, 0, 0)) := by
  decide

/-- C4 (amended): each fallback is a fixed template of the record and the
randomly drawn metric values; two executions whose draws yield the same
metrics produce identical fallback content. -/
theorem fallback_deterministic_given_equal_draws (company project_name : Str)
    (r r' : Nat × Nat × Nat) (h : get_varied_metrics r = get_varied_metrics r') :
    get_fallback_bullets company (get_varied_metrics r) =
        get_fallback_bullets company (get_varied_metrics r') ∧
      get_fallback_project_bullets project_name (get_varied_metrics r) =
        get_fallback_project_bullets project_name (get_varied_metrics r') := by
  rw [h]
  exact ⟨rfl, rfl⟩

/-- Witness for C4 (amended): two distinct draws with equal metric values. -/
theorem fallback_deterministic_given_equal_draws_witness :
    get_fallback_bullets "Acme Corp".toList (get_varied_metrics (0, 0, 0)) =
      get_fallback_bullets "Acme Corp".toList (get_varied_metrics (9, 5, 10)) :=
  (fallback_deterministic_given_equal_draws "Acme Corp".toList "WikiSearch".toList
    (0, 0, 0) (9, 5, 10) (by decide)).1

/-- C1 (amended): for an experience record that is not healthcare-flagged
(neither by employer marker nor by description keyword) and whose employer
name itself contains no banned keyword, the experience-bullet generator
returns 3 or 4 bullets and none of them contains a banned healthcare
keyword - whatever list of strings the gateway produced, and also when the
gateway fails. -/
theorem experience_bullets_truthful (e : ExperienceRecord)
    (gres : Option (List Str)) (rnd : Nat × Nat × Nat)
    (h1 : is_healthcare_experience e = false)
    (h2 : has_healthcare_in_description e = false)
    (h3 : ∀ k ∈ healthcare_keywords, strIn k (lower e.company) = false) :
    (3 ≤ (generate_experience_bullets_claude e gres (get_varied_metrics rnd)).length ∧
      (generate_experience_bullets_claude e gres (get_varied_metrics rnd)).length ≤ 4) ∧
    ∀ b ∈ generate_experience_bullets_claude e gres (get_varied_metrics rnd),
      ∀ k ∈ healthcare_keywords, strIn k (lower b) = false :=
  ⟨generate_bullets_length_range e gres _ h1 h2,
    generate_bullets_clean e gres rnd h1 h2 h3⟩

/-- Witness for C1 (amended) at a concrete record and gateway result. -/
theorem experience_bullets_truthful_witness :
    3 ≤ (generate_experience_bullets_claude sample_exp_acme
        (some [ "Improved patient flows".toList ])
        (get_varied_metrics (0, 0, 0))).length :=
  (experience_bullets_truthful sample_exp_acme
    (some [ "Improved patient flows".toList ]) (0, 0, 0)
    (by decide) (by decide) (by decide)).1.1

/-- C1 counterexample: "Healthfirst Tech" matches no healthcare employer
marker and its description has no healthcare keyword, yet after the filter
discards the only generated bullet, the synthesized filler bullets embed the
employer name, so the first output bullet contains the banned keyword
"health". -/
theorem experience_bullets_truthful_counterexample :
    is_healthcare_experience sample_exp_healthfirst = false ∧
      has_healthcare_in_description sample_exp_healthfirst = false ∧
      strIn "health".toList
          (lower ((generate_experience_bullets_claude sample_exp_healthfirst
              (some [ "Improved patient outcomes".toList ])
              (get_varied_metrics (0, 0, 0))).headD [])) = true := by
  decide

/-- C5 (amended): for every experience record NOT flagged as healthcare, the
experience-bullet generator returns between 3 and 4 strings; healthcare-
flagged records instead return the parsed gateway result without any length
validation. -/
theorem experience_bullets_length_range (e : ExperienceRecord)
    (gres : Option (List Str)) (m : Metrics)
    (h1 : is_healthcare_experience e = false)
    (h2 : has_healthcare_in_description e = false) :
    3 ≤ (generate_experience_bullets_claude e gres m).length ∧
      (generate_experience_bullets_claude e gres m).length ≤ 4 :=
  generate_bullets_length_range e gres m h1 h2

/-- Witness for C5 (amended) at a concrete record. -/
theorem experience_bullets_length_range_witness :
    3 ≤ (generate_experience_bullets_claude sample_exp_acme (some [])
        sample_metrics).length :=
  (experience_bullets_length_range sample_exp_acme (some []) sample_metrics
    (by decide) (by decide)).1

/-- C5 counterexample: a healthcare-flagged record whose parsed gateway
result has 2 elements yields 2 bullets, not 3-4. -/
theorem experience_bullets_length_counterexample :
    is_healthcare_experience sample_exp_bicycle = true ∧
      (generate_experience_bullets_claude sample_exp_bicycle
          (some [ "a".toList, "b".toList ]) sample_metrics).length = 2 := by
  decide

/-- C3 (amended): the project-bullet generator always returns exactly 2
elements; the output is the fallback pair unless the parsed gateway result
is a JSON array of length at least 2, in which case it is that array's
first 2 elements (whether or not they are strings). -/
theorem project_bullets_shape (project : ProjectRecord) (gres : Option JVal)
    (m : Metrics) :
    (generate_project_bullets_claude project gres m).length = 2 ∧
      (generate_project_bullets_claude project gres m =
          (get_fallback_project_bullets project.name m).map JVal.str ∨
        ∃ l, gres = some (JVal.arr l) ∧ 2 ≤ l.length ∧
          generate_project_bullets_claude project gres m = l.take 2) := by
  cases gres with
  | none => exact ⟨rfl, Or.inl rfl⟩
  | some result =>
    cases result with
    | arr l =>
      by_cases h : 2 ≤ l.length
      · constructor
        · simp only [generate_project_bullets_claude, if_pos h]
          rw [List.length_take]
          omega
        · exact Or.inr ⟨l, rfl, h,
            by simp only [generate_project_bullets_claude, if_pos h]⟩
      · exact ⟨by simp only [generate_project_bullets_claude, if_neg h]; rfl,
          Or.inl (by simp only [generate_project_bullets_claude, if_neg h])⟩
    | null => exact ⟨rfl, Or.inl rfl⟩
    | bool bv => exact ⟨rfl, Or.inl rfl⟩
    | num n => exact ⟨rfl, Or.inl rfl⟩
    | str s => exact ⟨rfl, Or.inl rfl⟩
    | obj o => exact ⟨rfl, Or.inl rfl⟩

/-- C3 counterexample: a parsed result that is a 3-element array (so not a
list of exactly 2 strings) does not produce the fallback pair - the source
truncates it to its first 2 elements instead. -/
theorem project_bullets_fallback_counterexample :
    ([ JVal.num 1, JVal.num 2, JVal.num 3 ].length ≠ 2) ∧
      generate_project_bullets_claude sample_project
          (some (JVal.arr [ JVal.num 1, JVal.num 2, JVal.num 3 ])) sample_metrics ≠
        (get_fallback_project_bullets sample_project.name sample_metrics).map
          JVal.str := by
  refine ⟨by decide, fun h => ?_⟩
  have h2 := congrArg List.head? h
  injection h2 with h3
  exact JVal.noConfusion h3

/-- C6: the response normalizer is total: for every `json.loads` behaviour,
input text (including a missing one) and fallback value, it returns either
the exact fallback or a successfully parsed, non-falsy value; in all other
cases - empty input, empty cleaned text, parse failure, or a parsed falsy
value - the fallback is returned unchanged. -/
theorem safe_json_parse_total (loads : Str → Option JVal) (text : Option Str)
    (fallback_data : JVal) :
    safe_json_parse loads text fallback_data = fallback_data ∨
      ∃ t v, text = some t ∧ loads (clean_json_response t) = some v ∧
        v.falsy = false ∧ safe_json_parse loads text fallback_data = v := by
  cases text with
  | none => exact Or.inl rfl
  | some t =>
    by_cases h1 : t.isEmpty
    · exact Or.inl (by simp [safe_json_parse, h1])
    · by_cases h2 : (clean_json_response t).isEmpty
      · exact Or.inl (by simp [safe_json_parse, h1, h2])
      · cases hl : loads (clean_json_response t) with
        | none => exact Or.inl (by simp [safe_json_parse, h1, h2, hl])
        | some parsed =>
          by_cases hf : parsed.falsy
          · exact Or.inl (by simp [safe_json_parse, h1, h2, hl, hf])
          · exact Or.inr ⟨t, parsed, rfl, hl, by simpa using hf,
              by simp [safe_json_parse, h1, h2, hl, hf]⟩

/-- C8: appending a key-technology token to a record's description never
decreases its relevance score, for both selectors. -/
theorem score_monotone_in_description (jd_analysis : JdAnalysis)
    (e : ExperienceRecord) (p : ProjectRecord) (tok : Str)
    (_htok : tok ∈ jd_analysis.key_technologies) :
    score_experience jd_analysis e ≤
        score_experience jd_analysis { e with description := e.description ++ tok } ∧
      score_project jd_analysis p ≤
        score_project jd_analysis { p with description := p.description ++ tok } := by
  rcases e with ⟨ec, er, ed, ej, edesc⟩
  rcases p with ⟨pn, pl, pdesc⟩
  exact ⟨score_experience_append_mono jd_analysis ec er ed ej edesc tok,
    score_project_append_mono jd_analysis pn pl pdesc tok⟩

/-- C9 counterexample: with the scenario-A profile, a pair of records where
only the first description contains "PostgreSQL" - but the second record
earns recency, skill and backend-role bonuses - ranks the PostgreSQL record
strictly lower, not higher. -/
theorem backend_postgres_counterexample :
    strIn "PostgreSQL".toList sample_exp_postgres.description = true ∧
      strIn "PostgreSQL".toList sample_exp_recent.description = false ∧
      score_experience sample_jd_backend sample_exp_postgres <
        score_experience sample_jd_backend sample_exp_recent ∧
      select_relevant_experiences [ sample_exp_postgres, sample_exp_recent ]
          sample_jd_backend 4 = [ sample_exp_recent, sample_exp_postgres ] := by
  decide

/-- C9 (amended): with the scenario-A profile, for a pair of records that
are identical except that one description additionally carries the token
"PostgreSQL" (and the base description does not contain it), the selector
scores the PostgreSQL record strictly higher and ranks it first, whichever
order the two records arrive in. -/
theorem backend_postgres_ranked_higher (e : ExperienceRecord)
    (hnot : strIn "postgresql".toList (lower e.description) = false) :
    score_experience sample_jd_backend e <
        score_experience sample_jd_backend
          { e with description := e.description ++ "PostgreSQL".toList } ∧
      select_relevant_experiences
          [ e, { e with description := e.description ++ "PostgreSQL".toList } ]
          sample_jd_backend 4 =
        [ { e with description := e.description ++ "PostgreSQL".toList }, e ] ∧
      select_relevant_experiences
          [ { e with description := e.description ++ "PostgreSQL".toList }, e ]
          sample_jd_backend 4 =
        [ { e with description := e.description ++ "PostgreSQL".toList }, e ] := by
  have hlt : score_experience sample_jd_backend e <
      score_experience sample_jd_backend
        { e with description := e.description ++ "PostgreSQL".toList } := by
    rcases e with ⟨ec, er, ed, ej, d⟩
    have hnot' : strIn "postgresql".toList (lower d) = false := hnot
    have htech0 : ((sample_jd_backend.key_technologies.map lower).countP
        (fun tech => strIn tech (lower d))) = 0 := by
      rw [show sample_jd_backend.key_technologies.map lower = [ "postgresql".toList ]
        from by decide]
      simp [List.countP_cons]
      exact hnot'
    have htech1 : ((sample_jd_backend.key_technologies.map lower).countP
        (fun tech => strIn tech (lower d ++ lower ( "PostgreSQL".toList)))) = 1 := by
      rw [show sample_jd_backend.key_technologies.map lower = [ "postgresql".toList ]
        from by decide]
      have hsuf : strIn "postgresql".toList
          (lower d ++ lower ( "PostgreSQL".toList)) = true := by
        rw [show lower ( "PostgreSQL".toList) = "postgresql".toList from by decide]
        exact strIn_iff.mpr (List.suffix_append _ _).isInfix
      simp [List.countP_cons]
      exact hsuf
    have hskill := countP_strIn_append_mono (sample_jd_backend.primary_skills.map lower)
      (lower d) (lower ( "PostgreSQL".toList))
    have hrole := @bonus_chain_append_mono experience_role_table (by decide)
      sample_jd_backend.role_type (lower d) (lower ( "PostgreSQL".toList))
    simp only [score_experience, lower_append]
    omega
  refine ⟨hlt, ?_, ?_⟩
  · rw [selectTop_experiences]
    exact (selectTop_pair_of_lt (score_experience sample_jd_backend) _ _ hlt).1
  · rw [selectTop_experiences]
    exact (selectTop_pair_of_lt (score_experience sample_jd_backend) _ _ hlt).2

/-- Witness for C9 (amended) at a concrete record. -/
theorem backend_postgres_ranked_higher_witness :
    score_experience sample_jd_backend sample_exp_acme <
      score_experience sample_jd_backend
        { sample_exp_acme with
          description := sample_exp_acme.description ++ "PostgreSQL".toList } :=
  (backend_postgres_ranked_higher sample_exp_acme (by decide)).1

/-- Witness for C8 at a concrete record, profile and token. -/
theorem score_monotone_in_description_witness :
    score_experience sample_jd_backend sample_exp_acme ≤
      score_experience sample_jd_backend
        { sample_exp_acme with
          description := sample_exp_acme.description ++ "PostgreSQL".toList } :=
  (score_monotone_in_description sample_jd_backend sample_exp_acme sample_project
    "PostgreSQL".toList (by decide)).1

end CVGen
